import Mathlib

/-!
Shallow embedding of the tenper core (src/tenper/core.py): the run-context
store and its scoped overlay manager, the template resolver built on the
Python string format method, the command runner, and the argument
dispatcher. Machine-level concerns such as bytes decoding are modelled at
the text level; child processes are modelled as a function from the
resolved argument vector to the observed exit status and captured output.
-/

/-- The context store: a mapping from keys to the string form of values,
embedded as an association list in which later entries override earlier
ones, mirroring how Python dict construction from a concatenated item
list and the dict update method let later pairs win. -/
abbrev Bindings := List (String × String)

/-- Lookup in a Bindings list with the Python dict override rule: the
latest binding for a key wins. -/
def dictLookup (b : Bindings) (k : String) : Option String :=
  match b with
  | [] => none
  | (k2, v) :: rest =>
    match dictLookup rest k with
    | some v2 => some v2
    | none => if k2 = k then some v else none

/-- One parsed element of a format template: either a literal character
or a named placeholder. -/
inductive Item where
  | lit (c : Char) : Item
  | ph (name : String) : Item
  deriving DecidableEq

/-- Reads a placeholder name up to the closing brace, as the field-name
scan of the Python format method does; fails on a nested opening brace
or a missing closing brace. -/
def parseName : List Char → Option (List Char × List Char)
  | [] => none
  | c :: r =>
    if c = '}' then some ([], r)
    else if c = '{' then none
    else
      match parseName r with
      | some (nm, rest) => some (c :: nm, rest)
      | none => none

/-- Template scanning of the Python format method, restricted to the
plain named-placeholder and doubled-brace forms the program uses. The
Nat argument bounds the recursion; every step consumes at least one
character, so supplying the character count is always enough fuel. -/
def parseFmtAux : Nat → List Char → Option (List Item)
  | _, [] => some []
  | 0, _ :: _ => none
  | n + 1, '{' :: '{' :: r => (parseFmtAux n r).map (fun is => Item.lit '{' :: is)
  | n + 1, '{' :: r =>
    match parseName r with
    | some (nm, r2) =>
      if nm.isEmpty then none
      else (parseFmtAux n r2).map (fun is => Item.ph (String.mk nm) :: is)
    | none => none
  | n + 1, '}' :: '}' :: r => (parseFmtAux n r).map (fun is => Item.lit '}' :: is)
  | _ + 1, '}' :: _ => none
  | n + 1, c :: r => (parseFmtAux n r).map (fun is => Item.lit c :: is)

/-- Parses a template character list into literal and placeholder
items; none embeds a malformed-template error. -/
def parseFmt (l : List Char) : Option (List Item) := parseFmtAux l.length l

/-- Substitutes every placeholder with its bound value; a placeholder
with no binding is a KeyError, embedded as none. -/
def substItems (b : Bindings) : List Item → Option (List Char)
  | [] => some []
  | Item.lit c :: r => (substItems b r).map (fun s => c :: s)
  | Item.ph n :: r =>
    match dictLookup b n with
    | some v => (substItems b r).map (fun s => v.data ++ s)
    | none => none

/-- The Python format method applied to a template with keyword
bindings, for the placeholder forms used by the program: parse the
template, then substitute; a KeyError or a malformed template is none,
an exception propagating to the caller. -/
def pyFormat (s : String) (b : Bindings) : Option String :=
  match parseFmt s.data with
  | some items => (substItems b items).map String.mk
  | none => none

/-- The Python string split on a single space: adjacent separators
produce empty fields and the empty string yields one empty field. -/
def splitSp : List Char → List (List Char)
  | [] => [[]]
  | c :: r =>
    if c = ' ' then [] :: splitSp r
    else
      match splitSp r with
      | t :: ts => (c :: t) :: ts
      | [] => [[c]]

/-- String-level wrapper for splitSp. -/
def pySplit (s : String) : List String := (splitSp s.data).map String.mk

/-- Observable outcome of one child process: its exit status and the
text captured by check_output, already decoded; on a nonzero exit this
is the output that the raised CalledProcessError carries. -/
structure ExecResult where
  exitCode : Nat
  output : String
  deriving DecidableEq

/-- The list comprehension at core.py line 99: format every token with
the combined bindings, raising (none) as soon as any token fails. -/
def formatTokens (b : Bindings) : List String → Option (List String)
  | [] => some []
  | p :: rest =>
    match pyFormat p b, formatTokens b rest with
    | some t, some ts => some (t :: ts)
    | _, _ => none

/-- configured (core.py lines 69 to 71): format a string with the
current run context, here passed explicitly as st. -/
def configured (st : Bindings) (string : String) : Option String :=
  pyFormat string st

/-- configured with the global store made explicit as state passed in
and returned: the source body reads the store and never assigns it. -/
def configuredS (st : Bindings) (string : String) : Option String × Bindings :=
  (configured st string, st)

/-- run (core.py lines 74 to 105). The merged dict of run-context items
followed by kwargs items at line 93 makes kwargs win on collision; the
trace print at line 95 formats the whole command line first, so a
missing binding raises there; the command is split on single spaces and
each token formatted at line 99; check_output raises CalledProcessError
exactly on a nonzero exit status, which is caught and turned into a
false flag paired with the output the error carries, while a zero exit
yields a true flag and the captured standard output (lines 97 to 105).
The child process is embedded as the function exec from the resolved
argument vector to its observed result. -/
def run (command : String) (ctx kwargs : Bindings)
    (exec : List String → ExecResult) : Option (Bool × String) :=
  match pyFormat command (ctx ++ kwargs) with
  | none => none
  | some _ =>
    match formatTokens (ctx ++ kwargs) (pySplit command) with
    | none => none
    | some argv =>
      if (exec argv).exitCode = 0 then some (true, (exec argv).output)
      else some (false, (exec argv).output)

/-- run with the global store explicit as state: run reads the store
once at line 93 and never assigns it. -/
def runS (st : Bindings) (command : String) (kwargs : Bindings)
    (exec : List String → ExecResult) : Option (Bool × String) × Bindings :=
  (run command st kwargs exec, st)

/-- run_context (core.py lines 56 to 66), with the global store made
explicit. The body is the block under the with statement: it may read
and write the store and may raise, and it starts from the overlay store
that the function installs before the yield, namely a copy of the saved
current store updated with the keyword overrides. On a normal or early
exit the line after the yield reinstalls the saved store. There is no
try or finally around the yield, so when the body raises, the generator
is resumed with the exception at the yield, the restore line never
runs, and the store is left exactly as the body left it while the
exception propagates. -/
def run_context {ε α : Type} (kwargs : Bindings)
    (body : Bindings → Except ε α × Bindings) (st : Bindings) :
    Except ε α × Bindings :=
  match body (st ++ kwargs) with
  | (Except.ok a, _) => (Except.ok a, st)
  | (Except.error e, stAfter) => (Except.error e, stAfter)

/-- Result of parse_args: the resolved command and, unless the command
is list (whose branch deletes the attribute), the project name. -/
structure ParsedArgs where
  command : String
  project_name : Option String
  deriving DecidableEq

/-- True when the token begins with a dash, in which case the argument
parser treats it as an option rather than a positional value. -/
def dashArg (s : String) : Bool :=
  match s.data with
  | c :: _ => c = '-'
  | [] => false

/-- parse_args (core.py lines 108 to 153). With exactly one argument
the parser takes it as the project name and defaults the command to
start; otherwise the first argument must be one of the three
subcommands, each taking one project name. In both cases, when the
parsed project name is the literal list, the trailing check at lines
148 to 151 rewrites the command to list and removes the project name.
Invocations the argument parser rejects, such as an unknown subcommand,
an option-like positional, or a wrong argument count, end the process
with a usage error before any core logic runs and are embedded as
none. -/
def parse_args (args : List String) : Option ParsedArgs :=
  match args with
  | [pn] =>
    if dashArg pn then none
    else if pn = "list" then some ⟨"list", none⟩
    else some ⟨"start", some pn⟩
  | [c, pn] =>
    if c = "edit" ∨ c = "rebuild" ∨ c = "delete" then
      if dashArg pn then none
      else if pn = "list" then some ⟨"list", none⟩
      else some ⟨c, some pn⟩
    else none
  | _ => none

/-- True when the path begins with a slash. -/
def absStart (s : String) : Bool :=
  match s.data with
  | c :: _ => c = '/'
  | [] => false

/-- True when the path ends with a slash. -/
def endsWithSlash (s : String) : Bool :=
  match s.data.getLast? with
  | some c => c = '/'
  | none => false

/-- The posix path join of two parts, as used at core.py line 172: an
absolute second part replaces the first, an empty or slash-terminated
first part is plain concatenation, and otherwise a separating slash is
inserted. -/
def path_join (a b : String) : String :=
  if absStart b then b
  else if a = "" then b
  else if endsWithSlash a then a ++ b
  else a ++ "/" ++ b

/-- The externally visible decisions of one dispatch: the resolved
command, the configuration file path loaded if any load happens, the
overlay the scoped context block is seeded with if one is entered, and
the argument the lifecycle operation receives. The lifecycle operations
and the YAML loader are external collaborators; the loader is passed in
as a function from the path to the parsed mapping. -/
structure Dispatch where
  command : String
  configLoad : Option String
  overlaySeed : Option Bindings
  opArg : Option String
  deriving DecidableEq

/-- main (core.py lines 165 to 176; the name main is reserved by Lean, so
the definition is called main_dispatch), with the configuration directory
of the base store and the external loader passed explicitly. The list
command calls the list operation directly, with no load and no overlay;
every other command computes the path join of config_path with the
project name carrying a .yml suffix (lines 172 to 173), loads that
file, and calls the operation named by the command with the project
name, inside a run_context overlay seeded with the loaded mapping
(lines 175 to 176). -/
def main_dispatch (args : List String) (config_path : String)
    (load : String → Bindings) : Option Dispatch :=
  match parse_args args with
  | none => none
  | some pa =>
    if pa.command = "list" then some ⟨"list", none, none, none⟩
    else
      match pa.project_name with
      | some name =>
        some ⟨pa.command, some (path_join config_path (name ++ ".yml")),
              some (load (path_join config_path (name ++ ".yml"))), some name⟩
      | none => none

/-- Rebuilding a string from its own character data gives it back. -/
theorem string_mk_data (v : String) : String.mk v.data = v := rfl

/-- A key bound in the right part of an appended store keeps that
binding, since later entries win. -/
theorem dictLookup_append_right (a b : Bindings) (k v : String)
    (h : dictLookup b k = some v) : dictLookup (a ++ b) k = some v := by
  induction a with
  | nil => simpa using h
  | cons p rest ih =>
    obtain ⟨k2, v2⟩ := p
    simp only [List.cons_append, dictLookup]
    rw [show List.append rest b = rest ++ b from rfl, ih]

/-- A key absent from the right part of an appended store is looked up
in the left part. -/
theorem dictLookup_append_left (a b : Bindings) (k : String)
    (h : dictLookup b k = none) : dictLookup (a ++ b) k = dictLookup a k := by
  induction a with
  | nil => simpa using h
  | cons p rest ih =>
    obtain ⟨k2, v2⟩ := p
    simp only [List.cons_append, dictLookup]
    rw [show List.append rest b = rest ++ b from rfl, ih]

/-- Substitution fails whenever some placeholder of the item list has
no binding. -/
theorem substItems_missing (b : Bindings) (k : String)
    (hb : dictLookup b k = none) :
    ∀ items : List Item, Item.ph k ∈ items → substItems b items = none := by
  intro items
  induction items with
  | nil => intro h; cases h
  | cons it rest ih =>
    intro h
    rcases List.mem_cons.mp h with h1 | h1
    · cases h1
      simp only [substItems, hb]
    · cases it with
      | lit c => simp only [substItems, ih h1, Option.map_none']
      | ph n =>
        cases hn : dictLookup b n with
        | none => simp only [substItems, hn]
        | some v => simp only [substItems, hn, ih h1, Option.map_none']

/-- Token-wise formatting preserves the token count. -/
theorem formatTokens_length (b : Bindings) :
    ∀ parts argv : List String, formatTokens b parts = some argv →
      argv.length = parts.length := by
  intro parts
  induction parts with
  | nil =>
    intro argv h
    simp only [formatTokens] at h
    cases h
    rfl
  | cons p rest ih =>
    intro argv h
    simp only [formatTokens] at h
    cases hp : pyFormat p b with
    | none => rw [hp] at h; cases h
    | some t =>
      cases hr : formatTokens b rest with
      | none => rw [hp, hr] at h; cases h
      | some ts =>
        rw [hp, hr] at h
        cases h
        simp only [List.length_cons, ih ts hr]

/-- Each token of the formatted vector is the formatting of the token
at the same position of the input vector. -/
theorem formatTokens_get (b : Bindings) :
    ∀ parts argv : List String, formatTokens b parts = some argv →
      ∀ (i : Nat) (tok : String), parts.get? i = some tok →
        ∃ r, pyFormat tok b = some r ∧ argv.get? i = some r := by
  intro parts
  induction parts with
  | nil =>
    intro argv h i tok hi
    simp at hi
  | cons p rest ih =>
    intro argv h i tok hi
    simp only [formatTokens] at h
    cases hp : pyFormat p b with
    | none => rw [hp] at h; cases h
    | some t =>
      cases hr : formatTokens b rest with
      | none => rw [hp, hr] at h; cases h
      | some ts =>
        rw [hp, hr] at h
        cases h
        cases i with
        | zero =>
          simp only [List.get?] at hi
          cases hi
          exact ⟨t, hp, rfl⟩
        | succ n =>
          simp only [List.get?] at hi
          exact ih ts hr n tok hi

/-- Formatting a token that is exactly one placeholder yields the bound
value itself, whatever characters the value contains. -/
theorem pyFormat_single_ph (tok : String) (b : Bindings) (k v : String)
    (hp : parseFmt tok.data = some [Item.ph k]) (hv : dictLookup b k = some v) :
    pyFormat tok b = some v := by
  simp only [pyFormat, hp, substItems, hv, Option.map_some', List.append_nil,
    string_mk_data]

/-- String append is associative, by passing to the character lists. -/
theorem string_append_assoc (a b c : String) : a ++ b ++ c = a ++ (b ++ c) := by
  cases a with
  | mk da =>
    cases b with
    | mk db =>
      cases c with
      | mk dc =>
        show String.mk (da ++ db ++ dc) = String.mk (da ++ (db ++ dc))
        rw [List.append_assoc]

/-- C1: the claim states that the context in effect after a scoped block
exits equals the context in effect before entry on every exit path,
including an exception propagating out of the block. The code restores
only on non-exceptional exits: evaluated at the concrete failing input,
a body that raises under an overlay leaves the overlay installed as the
current store after the block, which differs from the pre-entry
store. -/
theorem run_context_exception_keeps_overlay :
    (run_context [("session_name", "x")]
      (fun s => ((Except.error 1 : Except Nat Unit), s)) ([] : Bindings)).2
      = [("session_name", "x")] ∧
    [("session_name", "x")] ≠ ([] : Bindings) :=
  ⟨rfl, by decide⟩

/-- C7: for nested overlays entered via run_context, a key set only in
the inner overlay is visible inside the inner block, is no longer
visible after the inner block exits normally while the outer block is
still active, and the stores unwind last-in-first-out, the final store
being the pre-entry one. -/
theorem nested_overlays_lifo (st o1 o2 : Bindings) (k v : String)
    (h0 : dictLookup st k = none) (h1 : dictLookup o1 k = none)
    (h2 : dictLookup o2 k = some v) :
    run_context o1 (fun s1 =>
      match run_context o2
          (fun s2 => ((Except.ok (dictLookup s2 k) : Except Unit (Option String)), s2))
          s1 with
      | (Except.ok innerObs, s1b) =>
        ((Except.ok (innerObs, dictLookup s1b k) :
            Except Unit (Option String × Option String)), s1b)
      | (Except.error e, s1b) => (Except.error e, s1b)) st
    = (Except.ok (some v, none), st) := by
  show (Except.ok (dictLookup (st ++ o1 ++ o2) k, dictLookup (st ++ o1) k), st)
      = (Except.ok (some v, none), st)
  rw [dictLookup_append_right _ _ _ _ h2, dictLookup_append_left _ _ _ h1, h0]

/-- Witness for the nested-overlay theorem at concrete stores. -/
theorem nested_overlays_lifo_witness :
    dictLookup ([] : Bindings) "k" = none ∧
    dictLookup [("a", "1")] "k" = none ∧
    dictLookup [("k", "v")] "k" = some "v" ∧
    run_context [("a", "1")] (fun s1 =>
      match run_context [("k", "v")]
          (fun s2 => ((Except.ok (dictLookup s2 "k") : Except Unit (Option String)), s2))
          s1 with
      | (Except.ok innerObs, s1b) =>
        ((Except.ok (innerObs, dictLookup s1b "k") :
            Except Unit (Option String × Option String)), s1b)
      | (Except.error e, s1b) => (Except.error e, s1b)) ([] : Bindings)
    = (Except.ok (some "v", none), ([] : Bindings)) :=
  ⟨by decide, by decide, by decide,
    nested_overlays_lifo [] [("a", "1")] [("k", "v")] "k" "v"
      (by decide) (by decide) (by decide)⟩

/-- C9: template resolution is deterministic and side-effect free: with
the store threaded explicitly, resolving returns the store unchanged,
resolving again after a first resolution returns the same answer, and
the command runner likewise returns the store it was given. -/
theorem template_resolution_pure (st : Bindings) (s : String) :
    (configuredS st s).2 = st ∧
    (configuredS (configuredS st s).2 s).1 = (configuredS st s).1 ∧
    ∀ (kwargs : Bindings) (exec : List String → ExecResult),
      (runS st s kwargs exec).2 = st :=
  ⟨rfl, rfl, fun _ _ => rfl⟩

/-- C3 counterexample: the claim quantifies over every project name, but
for the project name list the trailing check of parse_args rewrites the
command: parsing edit list resolves to the command list with no project
name, not to the command edit. -/
theorem parse_edit_list_counterexample :
    parse_args ["edit", "list"] = some ⟨"list", none⟩ ∧
    parse_args ["edit", "list"] ≠ some ⟨"edit", some "list"⟩ := by
  decide

/-- C3 amended: for every project name other than the literal list (and
not option-like, which the argument parser rejects), parsing edit with
that name resolves to the command edit with that project name, and
likewise rebuild and delete. -/
theorem parse_subcommands (name : String)
    (h1 : name ≠ "list") (h2 : dashArg name = false) :
    parse_args ["edit", name] = some ⟨"edit", some name⟩ ∧
    parse_args ["rebuild", name] = some ⟨"rebuild", some name⟩ ∧
    parse_args ["delete", name] = some ⟨"delete", some name⟩ := by
  refine ⟨?_, ?_, ?_⟩ <;> simp [parse_args, h1, h2]

/-- Witness for the amended subcommand parse at a concrete name. -/
theorem parse_subcommands_witness :
    ("myproj" ≠ "list") ∧ (dashArg "myproj" = false) ∧
    parse_args ["edit", "myproj"] = some ⟨"edit", some "myproj"⟩ :=
  ⟨by decide, by decide, (parse_subcommands "myproj" (by decide) (by decide)).1⟩

/-- A concrete external loader used by the dispatch counterexample and
witnesses. -/
def loadStub : String → Bindings := fun _ => [("session_name", "s1")]

/-- C2 counterexample: the claim says the edit invocation performs no
configuration load, runs directly against the base context, and hands
the operation the computed path; evaluated on a concrete invocation the
dispatcher instead loads the computed file, seeds a scoped overlay with
the loaded pairs, and passes the project name, not the path, to the
operation. -/
theorem edit_loads_config_counterexample :
    (main_dispatch ["edit", "proj"] "/cfg" loadStub).map Dispatch.configLoad
      = some (some "/cfg/proj.yml") ∧
    (main_dispatch ["edit", "proj"] "/cfg" loadStub).map Dispatch.overlaySeed
      = some (some [("session_name", "s1")]) ∧
    (main_dispatch ["edit", "proj"] "/cfg" loadStub).map Dispatch.opArg
      = some (some "proj") := by
  decide

/-- C2 amended: for the invocation edit name, the dispatcher behaves as
for the other non-list commands: it computes the configuration file
path, loads that file, and invokes the edit operation inside a scoped
overlay seeded with the loaded pairs, passing the project name, not the
path, as the parameter. -/
theorem edit_dispatch_loads_config (name cp : String)
    (load : String → Bindings)
    (h1 : name ≠ "list") (h2 : dashArg name = false) :
    main_dispatch ["edit", name] cp load =
      some ⟨"edit", some (path_join cp (name ++ ".yml")),
            some (load (path_join cp (name ++ ".yml"))), some name⟩ := by
  simp [main_dispatch, parse_args, h1, h2]

/-- Witness for the amended edit dispatch at concrete inputs. -/
theorem edit_dispatch_loads_config_witness :
    ("proj" ≠ "list") ∧ (dashArg "proj" = false) ∧
    main_dispatch ["edit", "proj"] "/cfg" loadStub =
      some ⟨"edit", some "/cfg/proj.yml",
            some [("session_name", "s1")], some "proj"⟩ :=
  ⟨by decide, by decide,
    (edit_dispatch_loads_config "proj" "/cfg" loadStub (by decide) (by decide)).trans
      (by decide)⟩

/-- C8: a single bare argument other than the literal list resolves to
the start command, the configuration path is the configuration
directory joined with the project name carrying a .yml suffix, that
file is loaded, and the start operation receives the project name
inside a scoped overlay seeded with the loaded pairs; the bare argument
list resolves to the list command with no load and no overlay beyond
the base context. -/
theorem dispatcher_start_and_list (cp : String) (load : String → Bindings)
    (h1 : cp ≠ "") (h2 : endsWithSlash cp = false) :
    main_dispatch ["myproj"] cp load =
      some ⟨"start", some (cp ++ "/myproj.yml"),
            some (load (cp ++ "/myproj.yml")), some "myproj"⟩ ∧
    main_dispatch ["list"] cp load = some ⟨"list", none, none, none⟩ := by
  have hp : path_join cp "myproj.yml" = cp ++ "/myproj.yml" := by
    unfold path_join
    rw [if_neg (by decide), if_neg h1, if_neg (by simp [h2]),
      string_append_assoc]
    rfl
  have hd : dashArg "myproj" = false := by decide
  constructor
  · simp [main_dispatch, parse_args, hp, hd]
  · rfl

/-- Witness for the dispatcher scenarios at a concrete configuration
directory and loader. -/
theorem dispatcher_start_and_list_witness :
    ("/home/u/.tenper" ≠ "") ∧ (endsWithSlash "/home/u/.tenper" = false) ∧
    main_dispatch ["myproj"] "/home/u/.tenper" loadStub =
      some ⟨"start", some "/home/u/.tenper/myproj.yml",
            some [("session_name", "s1")], some "myproj"⟩ :=
  ⟨by decide, by decide,
    ((dispatcher_start_and_list "/home/u/.tenper" loadStub
      (by decide) (by decide)).1).trans (by decide)⟩

/-- C4: when every placeholder of the command line resolves, a nonzero
child exit status makes run return a false flag paired with the output
text the raised error carries, without the error propagating, and a
zero exit status makes run return a true flag with the captured and
decoded standard output. -/
theorem run_reports_exit_status (command : String) (ctx kwargs : Bindings)
    (exec : List String → ExecResult) (tr : String) (argv : List String)
    (h1 : pyFormat command (ctx ++ kwargs) = some tr)
    (h2 : formatTokens (ctx ++ kwargs) (pySplit command) = some argv) :
    ((exec argv).exitCode ≠ 0 →
      run command ctx kwargs exec = some (false, (exec argv).output)) ∧
    ((exec argv).exitCode = 0 →
      run command ctx kwargs exec = some (true, (exec argv).output)) := by
  have hr : run command ctx kwargs exec =
      if (exec argv).exitCode = 0 then some (true, (exec argv).output)
      else some (false, (exec argv).output) := by
    unfold run
    rw [h1, h2]
  constructor
  · intro h; rw [hr, if_neg h]
  · intro h; rw [hr, if_pos h]

/-- A child process model that always fails with exit status 2 and the
output text boom, used by the run witnesses. -/
def execFail : List String → ExecResult := fun _ => ⟨2, "boom"⟩

/-- Witness for the exit-status reporting of run at a concrete failing
command. -/
theorem run_reports_exit_status_witness :
    pyFormat "tmux kill-server" ([] ++ []) = some "tmux kill-server" ∧
    formatTokens ([] ++ []) (pySplit "tmux kill-server")
      = some ["tmux", "kill-server"] ∧
    (execFail ["tmux", "kill-server"]).exitCode ≠ 0 ∧
    run "tmux kill-server" [] [] execFail = some (false, "boom") :=
  ⟨by decide, by decide, by decide,
    (run_reports_exit_status "tmux kill-server" [] [] execFail
        "tmux kill-server" ["tmux", "kill-server"]
        (by decide) (by decide)).1 (by decide)⟩

/-- C5: a template containing a placeholder whose name has no binding in
the store fails to resolve, both through configured and through the
token-wise resolution inside run, as a propagating error rather than a
silent empty substitution. -/
theorem missing_binding_error_propagates (st : Bindings) (s : String)
    (items : List Item) (k : String)
    (hp : parseFmt s.data = some items) (hk : Item.ph k ∈ items)
    (hb : dictLookup st k = none) :
    configured st s = none ∧
    ∀ parts : List String, s ∈ parts → formatTokens st parts = none := by
  have hfmt : pyFormat s st = none := by
    simp only [pyFormat, hp, substItems_missing st k hb items hk, Option.map_none']
  refine ⟨hfmt, ?_⟩
  intro parts
  induction parts with
  | nil => intro hmem; cases hmem
  | cons p rest ih =>
    intro hmem
    rcases List.mem_cons.mp hmem with h | h
    · subst h
      simp only [formatTokens, hfmt]
    · have hr := ih h
      simp only [formatTokens, hr]
      cases pyFormat p st <;> rfl

/-- Witness for the missing-binding error at a concrete template and
store. -/
theorem missing_binding_error_propagates_witness :
    parseFmt "\x7bdst\x7d".data = some [Item.ph "dst"] ∧
    dictLookup [("src", "a")] "dst" = none ∧
    configured [("src", "a")] "\x7bdst\x7d" = none ∧
    formatTokens [("src", "a")] ["cp", "\x7bdst\x7d"] = none :=
  ⟨by decide, by decide,
    (missing_binding_error_propagates [("src", "a")] "\x7bdst\x7d"
        [Item.ph "dst"] "dst" (by decide) (by decide) (by decide)).1,
    (missing_binding_error_propagates [("src", "a")] "\x7bdst\x7d"
        [Item.ph "dst"] "dst" (by decide) (by decide) (by decide)).2
      ["cp", "\x7bdst\x7d"] (by decide)⟩

/-- C6: run splits the command line on single spaces before any
substitution and resolves each token independently, so the resolved
vector has exactly one entry per split token, and a token that is a
single placeholder resolves to the full bound value even when that
value contains spaces, while literal spaces always delimit tokens. -/
theorem run_splits_before_substitution (command : String) (b : Bindings)
    (argv : List String)
    (h : formatTokens b (pySplit command) = some argv) :
    argv.length = (pySplit command).length ∧
    ∀ (i : Nat) (tok k v : String), (pySplit command).get? i = some tok →
      parseFmt tok.data = some [Item.ph k] →
      dictLookup b k = some v →
      argv.get? i = some v := by
  refine ⟨formatTokens_length b _ _ h, ?_⟩
  intro i tok k v hi hp hv
  obtain ⟨r, hr, hargv⟩ := formatTokens_get b _ _ h i tok hi
  rw [pyFormat_single_ph tok b k v hp hv] at hr
  cases hr
  exact hargv

/-- Witness for split-before-substitution: a bound value containing a
space stays one token of the resolved vector. -/
theorem run_splits_before_substitution_witness :
    formatTokens [("path", "a b")] (pySplit "touch \x7bpath\x7d")
      = some ["touch", "a b"] ∧
    (pySplit "touch \x7bpath\x7d").get? 1 = some "\x7bpath\x7d" ∧
    ["touch", "a b"].get? 1 = some "a b" :=
  ⟨by decide, by decide,
    (run_splits_before_substitution "touch \x7bpath\x7d" [("path", "a b")]
        ["touch", "a b"] (by decide)).2 1 "\x7bpath\x7d" "path" "a b"
      (by decide) (by decide) (by decide)⟩

/-- C10: when some placeholder of the command line has no binding in the
combined store, the trace-line formatting already fails, run returns
the propagating error (none) for every possible child process, its
result does not depend on the child process at all, so none is spawned,
and the store comes back unchanged. -/
theorem run_missing_binding_no_spawn (command : String) (ctx kwargs : Bindings)
    (items : List Item) (k : String)
    (hp : parseFmt command.data = some items) (hk : Item.ph k ∈ items)
    (hb : dictLookup (ctx ++ kwargs) k = none) :
    pyFormat command (ctx ++ kwargs) = none ∧
    (∀ ex1 ex2 : List String → ExecResult,
      run command ctx kwargs ex1 = run command ctx kwargs ex2) ∧
    (∀ exec : List String → ExecResult, run command ctx kwargs exec = none) ∧
    (∀ exec : List String → ExecResult, (runS ctx command kwargs exec).2 = ctx) := by
  have hfmt : pyFormat command (ctx ++ kwargs) = none := by
    simp only [pyFormat, hp, substItems_missing _ _ hb items hk, Option.map_none']
  refine ⟨hfmt, ?_, ?_, fun _ => rfl⟩
  · intro ex1 ex2
    unfold run
    rw [hfmt]
  · intro exec
    unfold run
    rw [hfmt]

/-- Witness for the no-spawn behavior of run at a concrete command with
an unbound placeholder. -/
theorem run_missing_binding_no_spawn_witness :
    parseFmt "\x7bmissing\x7d".data = some [Item.ph "missing"] ∧
    dictLookup (([] : Bindings) ++ ([] : Bindings)) "missing" = none ∧
    ∀ exec : List String → ExecResult, run "\x7bmissing\x7d" [] [] exec = none :=
  ⟨by decide, by decide,
    (run_missing_binding_no_spawn "\x7bmissing\x7d" [] [] [Item.ph "missing"]
        "missing" (by decide) (by decide) (by decide)).2.2.1⟩
